import Mathlib

/-!
Shallow embedding of the web crawler and text extractor in `src/main.py`
(class `HTMLTextExtractor`, function `extract_text_from_html`, class
`WebCrawler` with its methods `get_safe_filename`, `is_valid_url`,
`extract_links`, `process_url`, `worker`), together with proofs of the
specification claims about it.

Python strings are modelled as `String`/`List Char`, Python ints as
`Nat`/`Int`, sets of strings as `List String` with membership, and the
thread-shared crawler state as an explicit record.  Effects that the
claims quantify over (the HTTP response, exceptions raised by file
writes, the links found in a page) are passed in as explicit
environment data, mirroring the control flow of the source line by
line.
-/

namespace Crawler

/-- Whitespace characters stripped by Python str.strip (ASCII subset;
the inputs in this development are ASCII). -/
def isPySpace (c : Char) : Bool :=
  c == ' ' || c == '\t' || c == '\n' || c == '\r' || c == '\x0b' || c == '\x0c'

/-- Drop the longest suffix whose characters all satisfy p. -/
def dropTrailingWhile (p : Char → Bool) (xs : List Char) : List Char :=
  (xs.reverse.dropWhile p).reverse

/-- Model of Python str.strip(): remove leading and trailing whitespace. -/
def pyStrip (xs : List Char) : List Char :=
  dropTrailingWhile isPySpace (xs.dropWhile isPySpace)

/-- Does needle occur as a contiguous run somewhere in haystack? -/
def containsSub (needle : List Char) : List Char → Bool
  | [] => needle.isEmpty
  | c :: rest => needle.isPrefixOf (c :: rest) || containsSub needle rest

/-- Model of Python substring containment: needle in haystack. -/
def pyContains (haystack needle : String) : Bool :=
  containsSub needle.data haystack.data

/-- Model of Python str.lower() (ASCII case folding). -/
def pyLower (s : String) : String :=
  ⟨s.data.map Char.toLower⟩

/-- Model of Python str concatenation. -/
def pyConcat (a b : String) : String :=
  ⟨a.data ++ b.data⟩

/-- Model of Python slicing s[:n]. -/
def pyTake (s : String) (n : Nat) : String :=
  ⟨s.data.take n⟩

/-- Model of Python len(s). -/
def pyLen (s : String) : Nat :=
  s.data.length

/-- Model of Python str.endswith. -/
def pyEndsWith (s suffix : String) : Bool :=
  suffix.data.isSuffixOf s.data

/-- Events delivered by the streaming HTML parser: open tag, close tag,
and text data (src/main.py lines 43-54). -/
inductive HtmlEvent where
  | startTag (tag : String)
  | endTag (tag : String)
  | textData (text : List Char)
deriving DecidableEq

/-- State of HTMLTextExtractor (src/main.py lines 34-57): accumulated
text blocks and the most recently opened tag. -/
structure HTMLTextExtractor where
  result : List (List Char)
  current_tag : Option String
deriving DecidableEq

/-- The fixed skip set of src/main.py line 40. -/
def skip_tags : List String :=
  ["style", "script", "meta", "head", "title", "link"]

/-- handle_starttag (src/main.py lines 43-44). -/
def handle_starttag (st : HTMLTextExtractor) (tag : String) : HTMLTextExtractor :=
  { st with current_tag := some tag }

/-- handle_endtag (src/main.py lines 46-48). -/
def handle_endtag (st : HTMLTextExtractor) (tag : String) : HTMLTextExtractor :=
  if st.current_tag = some tag then { st with current_tag := none } else st

/-- The test self.current_tag in self.skip_tags of src/main.py line 51
(None is never a member of the skip set). -/
def currentTagSkipped (st : HTMLTextExtractor) : Bool :=
  match st.current_tag with
  | some t => skip_tags.contains t
  | none => false

/-- handle_data (src/main.py lines 50-54): outside a skipped tag, strip
the datum and append it when non-empty. -/
def handle_data (st : HTMLTextExtractor) (text : List Char) : HTMLTextExtractor :=
  if currentTagSkipped st then st
  else
    let t := pyStrip text
    if t.isEmpty then st else { st with result := st.result ++ [t] }

/-- Dispatch one parser event to its handler. -/
def feedEvent (st : HTMLTextExtractor) : HtmlEvent → HTMLTextExtractor
  | .startTag t => handle_starttag st t
  | .endTag t => handle_endtag st t
  | .textData d => handle_data st d

/-- Feed a stream of events, as HTMLParser.feed drives the handlers. -/
def feed (st : HTMLTextExtractor) (evs : List HtmlEvent) : HTMLTextExtractor :=
  evs.foldl feedEvent st

/-- Model of Python newline-join over the accumulated blocks. -/
def joinNL : List (List Char) → List Char
  | [] => []
  | [b] => b
  | b :: bs => b ++ '\n' :: joinNL bs

/-- get_text (src/main.py lines 56-57). -/
def get_text (st : HTMLTextExtractor) : String :=
  ⟨joinNL st.result⟩

/-- Fresh extractor state (src/main.py lines 37-41). -/
def initExtractor : HTMLTextExtractor :=
  ⟨[], none⟩

/-- Tag name inside a bracket: up to the first whitespace, lowercased,
as html.parser reports tag names. -/
def tagNameOf (inside : List Char) : String :=
  ⟨(inside.takeWhile (fun c => !isPySpace c)).map Char.toLower⟩

/-- Fuel-indexed tokenizer modelling html.parser event delivery: a
bracketed run becomes a start or end tag event, any other maximal run
becomes one text-data event. -/
def tokenizeAux : Nat → List Char → List HtmlEvent
  | 0, _ => []
  | _, [] => []
  | fuel+1, '<' :: rest =>
    let inside := rest.takeWhile (fun c => c != '>')
    let rest' := (rest.dropWhile (fun c => c != '>')).drop 1
    let ev :=
      match inside with
      | '/' :: nm => HtmlEvent.endTag (tagNameOf nm)
      | _ => HtmlEvent.startTag (tagNameOf inside)
    ev :: tokenizeAux fuel rest'
  | fuel+1, cs =>
    HtmlEvent.textData (cs.takeWhile (fun c => c != '<')) ::
      tokenizeAux fuel (cs.dropWhile (fun c => c != '<'))

/-- Event stream of a markup string. -/
def tokenize (s : String) : List HtmlEvent :=
  tokenizeAux (s.data.length + 1) s.data

/-- extract_text_from_html (src/main.py lines 60-72): feed the markup
through a fresh HTMLTextExtractor and join the blocks. -/
def extract_text_from_html (html : String) : String :=
  get_text (feed initExtractor (tokenize html))

/-- Result of urllib.parse.urlparse as used by the crawler: the
components it reads (scheme, netloc, path, query). -/
structure ParsedUrl where
  scheme : String
  netloc : String
  path : String
  query : String
deriving DecidableEq

/-- The extension denylist of src/main.py lines 167-169. -/
def deny_extensions : List String :=
  [".jpg", ".jpeg", ".png", ".gif", ".pdf", ".zip", ".tar", ".gz",
   ".mp3", ".mp4", ".avi", ".mov", ".css", ".js"]

/-- is_valid_url (src/main.py lines 151-174).  Parsing is modelled as
an `Option ParsedUrl`: `none` means urlparse raised, which the
enclosing try/except maps to False, so the function is total. -/
def is_valid_url (domain : String) (parsed : Option ParsedUrl) : Bool :=
  match parsed with
  | none => false
  | some u =>
    if u.netloc != domain then false
    else if !(u.scheme == "http" || u.scheme == "https") then false
    else if deny_extensions.any (fun ext => pyEndsWith (pyLower u.path) ext) then false
    else true

/-- Replacement performed by re.sub for the character class outside
A-Za-z0-9_- (src/main.py line 138). -/
def sanitizeChar (c : Char) : Char :=
  if ('a' ≤ c && c ≤ 'z') || ('A' ≤ c && c ≤ 'Z') || ('0' ≤ c && c ≤ '9')
      || c == '_' || c == '-' then c else '_'

/-- Decimal digits of a Nat, most significant first, with explicit fuel
so that concrete instances reduce by evaluation.  Models Python decimal
formatting of a non-negative int. -/
def natDecimalAux : Nat → Nat → List Char
  | 0, _ => []
  | fuel+1, n =>
    if n < 10 then [Nat.digitChar n]
    else natDecimalAux fuel (n / 10) ++ [Nat.digitChar (n % 10)]

/-- Decimal rendering of a Nat, as an f-string renders it. -/
def natDecimal (n : Nat) : String :=
  ⟨natDecimalAux (n + 1) n⟩

/-- The name built by get_safe_filename before the length check
(src/main.py lines 130-143): path with /index default, characters
sanitized, query hash suffix when a query is present.  Python's hash is
run-dependent, so it is passed in as an arbitrary function. -/
def pre_truncation_name (hash : String → Int) (u : ParsedUrl) : String :=
  let path := if u.path = "" || u.path = "/" then "/index" else u.path
  let safe_name : String := ⟨path.data.map sanitizeChar⟩
  if u.query = "" then safe_name
  else pyConcat safe_name (pyConcat "_query_" (natDecimal ((hash u.query).natAbs % 10000)))

/-- The filename stem after the length check of src/main.py lines
146-147: names longer than 200 characters are cut to 190 and a hash
suffix is appended. -/
def get_safe_stem (hash : String → Int) (url : String) (u : ParsedUrl) : String :=
  let safe_name := pre_truncation_name hash u
  if pyLen safe_name > 200 then
    pyConcat (pyTake safe_name 190) (pyConcat "_hash_" (natDecimal ((hash url).natAbs % 10000)))
  else safe_name

/-- get_safe_filename (src/main.py lines 127-149): the stem plus the
.txt extension. -/
def get_safe_filename (hash : String → Int) (url : String) (u : ParsedUrl) : String :=
  pyConcat (get_safe_stem hash url u) ".txt"

/-- The shared mutable crawler state (src/main.py lines 104-117): the
visited set, the FIFO url queue, and the two counters.  The field
enqueue_history is ghost state recording every address ever appended to
the queue, used only to state the no-duplicate-enqueue invariant. -/
structure CrawlState where
  visited_urls : List String
  url_queue : List String
  processed_count : Nat
  failed_count : Nat
  enqueue_history : List String
deriving DecidableEq

/-- State after WebCrawler.__init__ (src/main.py lines 104-110): the
start url is put on the queue and added to the visited set. -/
def initCrawlState (start_url : String) : CrawlState :=
  ⟨[start_url], [start_url], 0, 0, [start_url]⟩

/-- One iteration of the admission loop of src/main.py lines 240-243,
executed under the lock: a link not yet visited is appended to the
queue and added to the visited set in the same critical section; a
visited link is skipped. -/
def admitLink (st : CrawlState) (link : String) : CrawlState :=
  if link ∈ st.visited_urls then st
  else { st with
           url_queue := st.url_queue ++ [link],
           visited_urls := link :: st.visited_urls,
           enqueue_history := st.enqueue_history ++ [link] }

/-- The whole admission loop over the extracted links. -/
def admit_new_links (st : CrawlState) (links : List String) : CrawlState :=
  links.foldl admitLink st

/-- Exceptions that requests.get raises (RequestException subclasses
reached by src/main.py line 210): timeouts and connection failures.
A non-2xx response does not raise — the source never calls
raise_for_status — so it is represented as a normal response below. -/
inductive RequestError where
  | timeout
  | connectionFailure
deriving DecidableEq

/-- Outcome of the requests.get call of src/main.py line 210: either a
raised RequestException, or a response carrying its status code,
Content-Type header value and body.  The source reads the header and
the body but never the status code. -/
inductive FetchResult where
  | err (e : RequestError)
  | ok (status : Nat) (contentType : String) (body : String)
deriving DecidableEq

/-- Outcome of extract_links (src/main.py lines 176-193).  Parsing via
BeautifulSoup is abstracted: the environment supplies the link set
accumulated before any exception, and whether an exception was raised
mid-extraction.  The internal try/except of lines 179-191 returns the
accumulated set in both cases. -/
structure LinkExtraction where
  found : List String
  raised : Bool
deriving DecidableEq

/-- extract_links returns its accumulated set whether or not an
exception interrupted the scan (src/main.py lines 190-193). -/
def extract_links (le : LinkExtraction) : List String :=
  le.found

/-- Environment for one process_url run: what the network and the
filesystem do.  writeHtmlOk is false when the html file write of lines
227-228 raises; textPhaseOk is false when text extraction or the text
file write of lines 231-233 raises. -/
structure PageEnv where
  fetch : FetchResult
  writeHtmlOk : Bool
  textPhaseOk : Bool
  links : LinkExtraction
deriving DecidableEq

/-- Result of one process_url run: the new shared state and which
artifact files were written. -/
structure ProcessResult where
  state : CrawlState
  wroteHtml : Bool
  wroteText : Bool
deriving DecidableEq

/-- process_url (src/main.py lines 195-261).  The try body: fetch; on
a RequestException fall to the handler (failed_count + 1).  On a
response, return unchanged if the lowercased Content-Type does not
contain text/html (lines 213-216).  Otherwise write the html file,
extract and write the text (an exception in either phase reaches the
generic handler: failed_count + 1), extract links, and under the lock
admit the new links and increment processed_count (lines 239-246). -/
def process_url (st : CrawlState) (url : String) (env : PageEnv) : ProcessResult :=
  match env.fetch with
  | .err _ => ⟨{ st with failed_count := st.failed_count + 1 }, false, false⟩
  | .ok _ contentType _ =>
    if !(pyContains (pyLower contentType) "text/html") then ⟨st, false, false⟩
    else if !env.writeHtmlOk then
      ⟨{ st with failed_count := st.failed_count + 1 }, false, false⟩
    else if !env.textPhaseOk then
      ⟨{ st with failed_count := st.failed_count + 1 }, true, false⟩
    else
      let st' := admit_new_links st (extract_links env.links)
      ⟨{ st' with processed_count := st'.processed_count + 1 }, true, true⟩

/-- Outcome of the bounded queue.get of src/main.py line 268: a url
was obtained, or the 2-second wait timed out (queue.Empty). -/
inductive DequeueResult where
  | got (url : String)
  | timedOut
deriving DecidableEq

/-- Whether the worker leaves its while-loop after this iteration. -/
inductive WorkerDecision where
  | exit
  | resume
deriving DecidableEq

/-- One iteration of the worker loop (src/main.py lines 263-282).  On
a dequeued url the head is removed and processed, and the loop always
continues (every per-page exception is absorbed by process_url, and
the worker's own except-clause also continues).  On queue.Empty the
worker takes the lock and breaks exactly when the queue is empty at
that check; otherwise it loops and retries. -/
def worker_iteration (st : CrawlState) (d : DequeueResult) (env : PageEnv) :
    CrawlState × WorkerDecision :=
  match d with
  | .got url =>
    ((process_url { st with url_queue := st.url_queue.tail } url env).state,
     WorkerDecision.resume)
  | .timedOut =>
    if st.url_queue.isEmpty then (st, WorkerDecision.exit)
    else (st, WorkerDecision.resume)

/-- The operations any thread performs on the shared frontier: one
admission step of the lock-protected loop of lines 240-243, or the
removal of the queue head by queue.get. -/
inductive FrontierOp where
  | admitNew (link : String)
  | dequeue

/-- Apply one frontier operation. -/
def applyOp (st : CrawlState) : FrontierOp → CrawlState
  | .admitNew link => admitLink st link
  | .dequeue => { st with url_queue := st.url_queue.tail }

/-- Frontier invariant: no address was ever appended to the queue
twice, and every address ever appended is in the visited set. -/
def FrontierInv (st : CrawlState) : Prop :=
  st.enqueue_history.Nodup ∧ ∀ a ∈ st.enqueue_history, a ∈ st.visited_urls

/-- Does this environment make the try-body of process_url raise an
exception that reaches one of the two except-clauses of src/main.py
lines 254-261?  This happens for a RequestException from the fetch and
for an exception in the html write or the text phase of an html page;
the non-html early return and the internally caught link-extraction
exception do not reach them. -/
def pageRaises (env : PageEnv) : Bool :=
  match env.fetch with
  | .err _ => true
  | .ok _ contentType _ =>
    pyContains (pyLower contentType) "text/html" && (!env.writeHtmlOk || !env.textPhaseOk)

/-- A well-formed output block: non-empty with no whitespace at either
end. -/
def nonWsEnds (b : List Char) : Bool :=
  b.head?.all (fun c => !isPySpace c) && b.getLast?.all (fun c => !isPySpace c)

/-- Blocks the extractor accumulates: non-empty and stripped. -/
def goodBlock (b : List Char) : Bool :=
  !b.isEmpty && nonWsEnds b

/-- A concrete crawl state used to instantiate theorems: the seed has
been dequeued and nothing else has happened. -/
def stA : CrawlState :=
  ⟨["http://host/"], [], 0, 0, ["http://host/"]⟩

/-- Environment of a fetch that returned a PDF response. -/
def envPdf : PageEnv :=
  ⟨FetchResult.ok 200 "application/pdf" "binary", true, true, ⟨[], false⟩⟩

/-- Environment of a fetch that returned an html 404 page. -/
def env404 : PageEnv :=
  ⟨FetchResult.ok 404 "text/html; charset=utf-8" "<html>missing</html>", true, true, ⟨[], false⟩⟩

/-- Environment of a fetch that timed out. -/
def envTimeout : PageEnv :=
  ⟨FetchResult.err RequestError.timeout, true, true, ⟨[], false⟩⟩

/-- Environment of an html page whose link extraction raised after
collecting one link. -/
def envLinkRaise : PageEnv :=
  ⟨FetchResult.ok 200 "text/html" "<html><a href=x>t</a></html>", true, true,
   ⟨["http://host/x"], true⟩⟩

/-!  Theorems. -/

/-- C1, counterexample: on a non-HTML response the processed counter
does not increase by one — the early return of src/main.py line 216
leaves the whole state unchanged, so the claim as stated is false. -/
theorem c1_counterexample :
    ((process_url stA "http://host/doc.pdf" envPdf).state.processed_count
        == stA.processed_count + 1) = false
    ∧ (process_url stA "http://host/doc.pdf" envPdf).state = stA := by
  constructor
  · decide
  · decide

/-- C1 (amended): for every fetched page whose response Content-Type
does not contain text/html, the worker skips persistence and link
extraction and returns with the entire shared state unchanged: neither
the processed counter nor the failed counter moves, and no artifact is
written. -/
theorem c1_non_html_skips_and_counts_nothing
    (st : CrawlState) (url : String) (env : PageEnv)
    (status : Nat) (contentType body : String)
    (hfetch : env.fetch = FetchResult.ok status contentType body)
    (hct : pyContains (pyLower contentType) "text/html" = false) :
    process_url st url env = ⟨st, false, false⟩ := by
  simp [process_url, hfetch, hct]

/-- C1 witness: the amended theorem applied to a PDF response. -/
theorem c1_witness :
    envPdf.fetch = FetchResult.ok 200 "application/pdf" "binary"
    ∧ pyContains (pyLower "application/pdf") "text/html" = false
    ∧ process_url stA "http://host/doc.pdf" envPdf = ⟨stA, false, false⟩ :=
  ⟨rfl, by decide,
    c1_non_html_skips_and_counts_nothing stA "http://host/doc.pdf" envPdf
      200 "application/pdf" "binary" rfl (by decide)⟩

/-- C3, counterexample: a 404 response with an html content type is a
non-2xx HTTP response, yet the failed counter stays unchanged and the
page is processed normally — the source never checks the status code,
so the claim as stated is false. -/
theorem c3_counterexample :
    ((process_url stA "http://host/missing" env404).state.failed_count
        == stA.failed_count + 1) = false
    ∧ ((process_url stA "http://host/missing" env404).state.processed_count
        == stA.processed_count + 1) = true := by
  constructor
  · decide
  · decide

/-- C3 (amended): every transport exception raised by the fetch — a
timeout or a connection failure — increments the failed counter by one
and abandons the address: the queue, the visited set and the processed
counter are unchanged and no artifact is written.  A non-2xx HTTP
response raises nothing and is not counted as failed: its status code
is ignored and it is handled purely by its content type. -/
theorem c3_transport_exception_abandons
    (st : CrawlState) (url : String) (env : PageEnv) (e : RequestError)
    (hfetch : env.fetch = FetchResult.err e) :
    (process_url st url env).state.failed_count = st.failed_count + 1
    ∧ (process_url st url env).state.processed_count = st.processed_count
    ∧ (process_url st url env).state.url_queue = st.url_queue
    ∧ (process_url st url env).state.visited_urls = st.visited_urls
    ∧ (process_url st url env).wroteHtml = false
    ∧ (process_url st url env).wroteText = false := by
  simp [process_url, hfetch]

/-- C3 witness: the amended theorem applied to a timed-out fetch. -/
theorem c3_witness :
    envTimeout.fetch = FetchResult.err RequestError.timeout
    ∧ (process_url stA "http://host/slow" envTimeout).state.failed_count
        = stA.failed_count + 1 :=
  ⟨rfl,
    (c3_transport_exception_abandons stA "http://host/slow" envTimeout
      RequestError.timeout rfl).1⟩

/-- C4: one worker-loop iteration exits if and only if the dequeue
timed out and the pending queue observed under the mutex is empty; on
a timeout with a non-empty queue, and on every dequeued url, the
worker resumes its loop.  In particular a worker never terminates
while the queue it observes is non-empty. -/
theorem c4_worker_exits_iff_timeout_and_empty
    (st : CrawlState) (d : DequeueResult) (env : PageEnv) :
    (worker_iteration st d env).2 = WorkerDecision.exit
      ↔ (d = DequeueResult.timedOut ∧ st.url_queue = []) := by
  cases d with
  | got url => simp [worker_iteration]
  | timedOut =>
    by_cases h : st.url_queue = []
    · simp [worker_iteration, h]
    · simp [worker_iteration, List.isEmpty_iff, h]

/-- C5, counterexample: an exception raised during link extraction is
caught inside extract_links itself (src/main.py lines 190-191); the
failed counter does not move and the page still counts as processed,
so the claim that every per-page exception increments the failed
counter is false. -/
theorem c5_counterexample :
    envLinkRaise.links.raised = true
    ∧ ((process_url stA "http://host/" envLinkRaise).state.failed_count
        == stA.failed_count + 1) = false
    ∧ ((process_url stA "http://host/" envLinkRaise).state.processed_count
        == stA.processed_count + 1) = true := by
  refine ⟨rfl, ?_, ?_⟩
  · decide
  · decide

/-- C5 (amended): every exception raised while fetching, writing the
html file, or extracting and writing the text is caught inside
process_url, increments the failed counter by exactly one, leaves the
processed counter unchanged, and the worker resumes its loop.  An
exception raised during link extraction is caught inside the link
extractor instead: the outcome of process_url depends only on the
links collected before the exception, not on whether one was raised,
and such a page still counts as processed. -/
theorem c5_per_page_exceptions_counted_once :
    (∀ (st : CrawlState) (url : String) (env : PageEnv),
      pageRaises env = true →
        (process_url st url env).state.failed_count = st.failed_count + 1
        ∧ (process_url st url env).state.processed_count = st.processed_count
        ∧ (worker_iteration st (DequeueResult.got url) env).2 = WorkerDecision.resume)
    ∧ (∀ (st : CrawlState) (url : String) (env : PageEnv) (r : Bool),
        process_url st url ⟨env.fetch, env.writeHtmlOk, env.textPhaseOk, ⟨env.links.found, r⟩⟩
          = process_url st url env) := by
  constructor
  · intro st url env h
    refine ⟨?_, ?_, rfl⟩ <;>
    · obtain ⟨f, wh, tp, ls⟩ := env
      cases f with
      | err e => simp [process_url]
      | ok status ct body =>
        simp only [pageRaises, Bool.and_eq_true, Bool.or_eq_true] at h
        obtain ⟨hct, hraise⟩ := h
        cases wh with
        | false => simp [process_url, hct]
        | true =>
          cases tp with
          | false => simp [process_url, hct]
          | true => simp at hraise
  · intro st url env r
    obtain ⟨f, wh, tp, ⟨ls, r0⟩⟩ := env
    cases f <;> simp [process_url, extract_links]

/-- C5 witness: the amended theorem applied to a timed-out fetch in a
concrete state. -/
theorem c5_witness :
    pageRaises envTimeout = true
    ∧ (process_url stA "http://host/slow" envTimeout).state.failed_count
        = stA.failed_count + 1 :=
  ⟨rfl, (c5_per_page_exceptions_counted_once.1 stA "http://host/slow" envTimeout rfl).1⟩

/-- C8: a fetch that times out increments the failed counter by
exactly one and changes nothing else: the processed counter, the
visited set, the queue and the ghost history keep their values, and
neither artifact file is written. -/
theorem c8_timeout_increments_failed_only
    (st : CrawlState) (url : String) (env : PageEnv)
    (hfetch : env.fetch = FetchResult.err RequestError.timeout) :
    process_url st url env
      = ⟨{ st with failed_count := st.failed_count + 1 }, false, false⟩ := by
  simp [process_url, hfetch]

/-- C8 witness: the theorem applied to a concrete timed-out fetch. -/
theorem c8_witness :
    envTimeout.fetch = FetchResult.err RequestError.timeout
    ∧ process_url stA "http://host/slow" envTimeout
        = ⟨{ stA with failed_count := stA.failed_count + 1 }, false, false⟩ :=
  ⟨rfl, c8_timeout_increments_failed_only stA "http://host/slow" envTimeout rfl⟩

/-- Admitting an already-visited link changes nothing at all. -/
theorem admitLink_visited {st : CrawlState} {link : String}
    (h : link ∈ st.visited_urls) : admitLink st link = st := by
  simp [admitLink, h]

/-- One admission step preserves the frontier invariant. -/
theorem frontierInv_admitLink {st : CrawlState} (link : String)
    (h : FrontierInv st) : FrontierInv (admitLink st link) := by
  obtain ⟨hnd, hsub⟩ := h
  by_cases hv : link ∈ st.visited_urls
  · rw [admitLink_visited hv]; exact ⟨hnd, hsub⟩
  · have hnh : link ∉ st.enqueue_history := fun hmem => hv (hsub link hmem)
    constructor
    · simp only [admitLink, hv, if_neg, ite_false]
      simp [List.nodup_append, hnd, hnh]
    · intro a ha
      simp only [admitLink, hv, ite_false] at ha ⊢
      rcases List.mem_append.1 ha with h1 | h1
      · exact List.mem_cons_of_mem _ (hsub a h1)
      · simp only [List.mem_singleton] at h1
        exact h1 ▸ List.mem_cons_self _ _

/-- Every frontier operation preserves the frontier invariant. -/
theorem frontierInv_applyOp {st : CrawlState} (op : FrontierOp)
    (h : FrontierInv st) : FrontierInv (applyOp st op) := by
  cases op with
  | admitNew link => exact frontierInv_admitLink link h
  | dequeue => exact h

/-- The invariant is preserved by any sequence of frontier operations. -/
theorem frontierInv_foldl (ops : List FrontierOp) (st : CrawlState)
    (h : FrontierInv st) : FrontierInv (ops.foldl applyOp st) := by
  induction ops generalizing st with
  | nil => exact h
  | cons op ops ih => exact ih (applyOp st op) (frontierInv_applyOp op h)

/-- C2: admitting a link that is already in the visited set never
changes the pending queue length, and — because an address joins the
visited set in the same atomic step that appends it to the queue —
after any sequence of admissions and dequeues starting from the seeded
state, the history of queue appends has no duplicate: no address is
ever enqueued twice. -/
theorem c2_idempotent_admission_no_double_enqueue :
    (∀ (st : CrawlState) (link : String), link ∈ st.visited_urls →
      (admitLink st link).url_queue.length = st.url_queue.length)
    ∧ (∀ (start_url : String) (ops : List FrontierOp),
        ((ops.foldl applyOp (initCrawlState start_url)).enqueue_history).Nodup) := by
  constructor
  · intro st link h
    rw [admitLink_visited h]
  · intro start_url ops
    have hinit : FrontierInv (initCrawlState start_url) := by
      constructor
      · simp [initCrawlState]
      · intro a ha
        simpa [initCrawlState] using ha
    exact (frontierInv_foldl ops _ hinit).1

/-- C2 witness: re-admitting the seed address in a concrete state
leaves the queue length unchanged, and a concrete operation sequence
keeps the append history duplicate-free. -/
theorem c2_witness :
    ("http://host/" ∈ stA.visited_urls
      ∧ (admitLink stA "http://host/").url_queue.length = stA.url_queue.length)
    ∧ (([FrontierOp.admitNew "http://host/a", FrontierOp.dequeue,
          FrontierOp.admitNew "http://host/a"].foldl applyOp
            (initCrawlState "http://host/")).enqueue_history).Nodup :=
  ⟨⟨by decide, c2_idempotent_admission_no_double_enqueue.1 stA "http://host/" (by decide)⟩,
    c2_idempotent_admission_no_double_enqueue.2 "http://host/"
      [FrontierOp.admitNew "http://host/a", FrontierOp.dequeue, FrontierOp.admitNew "http://host/a"]⟩

/-- C6: the URL classifier is total by construction — a parse failure
is the none case and maps to false — and it returns false whenever the
candidate's host differs from the target host by exact string
comparison, whenever the scheme is neither http nor https, and
whenever the lowercased path ends in one of the denylisted
extensions. -/
theorem c6_is_valid_url_rejections :
    (∀ domain : String, is_valid_url domain none = false)
    ∧ (∀ (domain : String) (u : ParsedUrl),
        (u.netloc == domain) = false → is_valid_url domain (some u) = false)
    ∧ (∀ (domain : String) (u : ParsedUrl),
        (u.scheme == "http") = false → (u.scheme == "https") = false →
          is_valid_url domain (some u) = false)
    ∧ (∀ (domain : String) (u : ParsedUrl),
        (deny_extensions.any fun ext => pyEndsWith (pyLower u.path) ext) = true →
          is_valid_url domain (some u) = false) := by
  refine ⟨fun domain => rfl, ?_, ?_, ?_⟩
  · intro domain u h
    simp [is_valid_url, bne, h]
  · intro domain u h1 h2
    by_cases hn : (u.netloc == domain) = true
    · simp [is_valid_url, bne, hn, h1, h2]
    · simp only [Bool.not_eq_true] at hn
      simp [is_valid_url, bne, hn]
  · intro domain u hext
    by_cases hn : (u.netloc == domain) = true
    · by_cases hs : (u.scheme == "http" || u.scheme == "https") = true
      · simp [is_valid_url, bne, hn, hs, hext]
      · simp only [Bool.not_eq_true] at hs
        simp [is_valid_url, bne, hn, hs]
    · simp only [Bool.not_eq_true] at hn
      simp [is_valid_url, bne, hn]

/-- C6 witness: the rejection clauses applied to concrete addresses;
the extension clause checks an uppercase .JPG path, exercising the
lowercasing. -/
theorem c6_witness :
    is_valid_url "example.test" none = false
    ∧ is_valid_url "example.test" (some ⟨"http", "other.test", "/a", ""⟩) = false
    ∧ is_valid_url "example.test" (some ⟨"ftp", "example.test", "/a", ""⟩) = false
    ∧ is_valid_url "example.test" (some ⟨"http", "example.test", "/img/photo.JPG", ""⟩) = false :=
  ⟨c6_is_valid_url_rejections.1 "example.test",
   c6_is_valid_url_rejections.2.1 "example.test" ⟨"http", "other.test", "/a", ""⟩ (by decide),
   c6_is_valid_url_rejections.2.2.1 "example.test" ⟨"ftp", "example.test", "/a", ""⟩
     (by decide) (by decide),
   c6_is_valid_url_rejections.2.2.2 "example.test" ⟨"http", "example.test", "/img/photo.JPG", ""⟩
     (by decide)⟩

/-- A number below 10^(k+1) renders to at most k+1 decimal digits,
whatever the fuel. -/
theorem natDecimalAux_length_le (k : Nat) :
    ∀ (fuel n : Nat), n < 10 ^ (k + 1) →
      (natDecimalAux fuel n).length ≤ k + 1 := by
  induction k with
  | zero =>
    intro fuel n hn
    cases fuel with
    | zero => simp [natDecimalAux]
    | succ f =>
      simp only [natDecimalAux]
      rw [if_pos (by simpa using hn)]
      simp
  | succ k ih =>
    intro fuel n hn
    cases fuel with
    | zero => simp [natDecimalAux]
    | succ f =>
      simp only [natDecimalAux]
      by_cases h10 : n < 10
      · rw [if_pos h10]; simp
      · rw [if_neg h10]
        have hdiv : n / 10 < 10 ^ (k + 1) := by
          apply Nat.div_lt_of_lt_mul
          calc n < 10 ^ (k + 1 + 1) := hn
            _ = 10 * 10 ^ (k + 1) := by ring
        have := ih f (n / 10) hdiv
        simp only [List.length_append, List.length_singleton]
        omega

/-- The hash suffixes of get_safe_filename render to at most four
characters, since the hash value is reduced mod 10000. -/
theorem natDecimal_mod_length_le (n : Nat) :
    pyLen (natDecimal (n % 10000)) ≤ 4 := by
  have hlt : n % 10000 < 10 ^ 4 :=
    calc n % 10000 < 10000 := Nat.mod_lt n (by norm_num)
      _ ≤ 10 ^ 4 := by norm_num
  exact natDecimalAux_length_le 3 (n % 10000 + 1) (n % 10000) hlt

/-- Length of a modelled Python concatenation. -/
theorem pyLen_pyConcat (a b : String) : pyLen (pyConcat a b) = pyLen a + pyLen b := by
  simp [pyLen, pyConcat]

/-- C7: the filename stem produced before the .txt extension never
exceeds 200 characters; when the sanitized name with its query suffix
exceeds 200 characters it is cut to its first 190 characters and the
suffix built from the full-address hash mod 10000 is appended, which
keeps the total at 200 or less. -/
theorem c7_safe_filename_stem_bounded
    (hash : String → Int) (url : String) (u : ParsedUrl) :
    pyLen (get_safe_stem hash url u) ≤ 200
    ∧ (200 < pyLen (pre_truncation_name hash u) →
        get_safe_stem hash url u =
          pyConcat (pyTake (pre_truncation_name hash u) 190)
            (pyConcat "_hash_" (natDecimal ((hash url).natAbs % 10000)))) := by
  constructor
  · unfold get_safe_stem
    by_cases h : pyLen (pre_truncation_name hash u) > 200
    · rw [if_pos h]
      rw [pyLen_pyConcat, pyLen_pyConcat]
      have htake : pyLen (pyTake (pre_truncation_name hash u) 190) ≤ 190 := by
        simp [pyLen, pyTake]
      have hdec := natDecimal_mod_length_le (hash url).natAbs
      have hfix : pyLen "_hash_" = 6 := by decide
      omega
    · rw [if_neg h]
      omega
  · intro h
    unfold get_safe_stem
    rw [if_pos h]

set_option maxRecDepth 16000 in
/-- C7 witness: the theorem applied to a 250-character path with a
constant hash function; the pre-truncation name exceeds 200 characters
and the stem still stays within the bound. -/
theorem c7_witness :
    200 < pyLen (pre_truncation_name (fun _ => (7 : Int))
        ⟨"http", "host", ⟨List.replicate 250 'a'⟩, ""⟩)
    ∧ pyLen (get_safe_stem (fun _ => (7 : Int)) "http://host/long"
        ⟨"http", "host", ⟨List.replicate 250 'a'⟩, ""⟩) ≤ 200
    ∧ get_safe_stem (fun _ => (7 : Int)) "http://host/long"
        ⟨"http", "host", ⟨List.replicate 250 'a'⟩, ""⟩ =
        pyConcat (pyTake (pre_truncation_name (fun _ => (7 : Int))
            ⟨"http", "host", ⟨List.replicate 250 'a'⟩, ""⟩) 190)
          (pyConcat "_hash_" (natDecimal ((7 : Int).natAbs % 10000))) :=
  ⟨by decide,
   (c7_safe_filename_stem_bounded (fun _ => (7 : Int)) "http://host/long"
     ⟨"http", "host", ⟨List.replicate 250 'a'⟩, ""⟩).1,
   (c7_safe_filename_stem_bounded (fun _ => (7 : Int)) "http://host/long"
     ⟨"http", "host", ⟨List.replicate 250 'a'⟩, ""⟩).2 (by decide)⟩

/-- C9: extractText on the markup <script>x</script>visible yields
exactly "visible"; in general, a text datum arriving while the current
tag is in the skip set is discarded, and a datum arriving outside the
skip set whose stripped form is non-blank is appended to the output
blocks. -/
theorem c9_script_text_skipped :
    extract_text_from_html "<script>x</script>visible" = "visible"
    ∧ (∀ (st : HTMLTextExtractor) (t : String) (d : List Char),
        st.current_tag = some t → t ∈ skip_tags →
          (handle_data st d).result = st.result)
    ∧ (∀ (st : HTMLTextExtractor) (d : List Char),
        currentTagSkipped st = false → pyStrip d ≠ [] →
          (handle_data st d).result = st.result ++ [pyStrip d]) := by
  refine ⟨by decide, ?_, ?_⟩
  · intro st t d hcur hmem
    have hskip : currentTagSkipped st = true := by
      simp only [currentTagSkipped, hcur, List.contains_eq_any_beq]
      exact List.any_eq_true.2 ⟨t, hmem, by simp⟩
    simp [handle_data, hskip]
  · intro st d hskip hne
    simp [handle_data, hskip, List.isEmpty_iff, hne]

/-- C9 witness: both general clauses applied to concrete extractor
states: an x datum inside an open script tag is dropped, a visible
datum outside it is kept. -/
theorem c9_witness :
    ((⟨[], some "script"⟩ : HTMLTextExtractor).current_tag = some "script"
      ∧ "script" ∈ skip_tags
      ∧ (handle_data ⟨[], some "script"⟩ ['x']).result = ([] : List (List Char)))
    ∧ (currentTagSkipped ⟨[], none⟩ = false
      ∧ pyStrip "visible".data ≠ []
      ∧ (handle_data ⟨[], none⟩ "visible".data).result = [] ++ [pyStrip "visible".data]) :=
  ⟨⟨rfl, by decide,
     c9_script_text_skipped.2.1 ⟨[], some "script"⟩ "script" ['x'] rfl (by decide)⟩,
   ⟨rfl, by decide,
     c9_script_text_skipped.2.2 ⟨[], none⟩ "visible".data rfl (by decide)⟩⟩

/-- The head of what dropWhile leaves does not satisfy the predicate. -/
theorem dropWhile_head_false {p : Char → Bool} {l : List Char} {c : Char} {t : List Char}
    (h : l.dropWhile p = c :: t) : p c = false := by
  have hd := List.head?_dropWhile_not p l
  rw [h] at hd
  simpa using hd

/-- dropWhile removes a prefix: the input is that prefix plus the
output. -/
theorem exists_append_dropWhile (p : Char → Bool) (l : List Char) :
    ∃ t, l = t ++ l.dropWhile p := by
  induction l with
  | nil => exact ⟨[], rfl⟩
  | cons a l ih =>
    by_cases h : p a
    · obtain ⟨t, ht⟩ := ih
      refine ⟨a :: t, ?_⟩
      simp only [List.dropWhile_cons, h, if_true]
      rw [List.cons_append, ← ht]
    · exact ⟨[], by simp [List.dropWhile_cons, h]⟩

/-- A non-empty result of dropTrailingWhile starts with the same
character as its input. -/
theorem dropTrailingWhile_cons {p : Char → Bool} {l : List Char} {c : Char} {t : List Char}
    (h : dropTrailingWhile p l = c :: t) : ∃ t2, l = c :: t2 := by
  unfold dropTrailingWhile at h
  obtain ⟨s, hs⟩ := exists_append_dropWhile p l.reverse
  have h2 : l.reverse.dropWhile p = t.reverse ++ [c] := by
    have := congrArg List.reverse h
    simpa using this
  refine ⟨(s ++ t.reverse).reverse, ?_⟩
  have h3 : l.reverse = (s ++ t.reverse) ++ [c] := by
    rw [hs, h2, List.append_assoc]
  calc l = l.reverse.reverse := by simp
    _ = ((s ++ t.reverse) ++ [c]).reverse := by rw [h3]
    _ = c :: (s ++ t.reverse).reverse := by simp

/-- A non-empty stripped datum starts with a non-whitespace
character. -/
theorem pyStrip_head_not_space {xs : List Char} {c : Char} {t : List Char}
    (h : pyStrip xs = c :: t) : isPySpace c = false := by
  unfold pyStrip at h
  obtain ⟨t2, ht2⟩ := dropTrailingWhile_cons h
  exact dropWhile_head_false ht2

/-- A non-empty stripped datum ends with a non-whitespace character. -/
theorem pyStrip_getLast_not_space {xs : List Char} {c : Char}
    (h : (pyStrip xs).getLast? = some c) : isPySpace c = false := by
  unfold pyStrip dropTrailingWhile at h
  rw [List.getLast?_reverse] at h
  cases hw : (xs.dropWhile isPySpace).reverse.dropWhile isPySpace with
  | nil => rw [hw] at h; simp at h
  | cons a w =>
    rw [hw] at h
    simp only [List.head?_cons, Option.some.injEq] at h
    exact h ▸ dropWhile_head_false hw

/-- Every stripped datum has non-whitespace ends. -/
theorem nonWsEnds_pyStrip (d : List Char) : nonWsEnds (pyStrip d) = true := by
  unfold nonWsEnds
  cases h : pyStrip d with
  | nil => simp
  | cons c t =>
    have h1 := pyStrip_head_not_space h
    cases hg : (c :: t).getLast? with
    | none => simp at hg
    | some x =>
      have h2 := pyStrip_getLast_not_space (h ▸ hg)
      simp [h1, h2, hg]

/-- handle_data preserves goodness of all accumulated blocks. -/
theorem handle_data_good {st : HTMLTextExtractor} (d : List Char)
    (h : st.result.all goodBlock = true) :
    (handle_data st d).result.all goodBlock = true := by
  by_cases hskip : currentTagSkipped st = true
  · simpa [handle_data, hskip] using h
  · by_cases hempty : (pyStrip d).isEmpty = true
    · simpa [handle_data, hskip, hempty] using h
    · simpa [handle_data, hskip, hempty, goodBlock, nonWsEnds_pyStrip] using h

/-- Feeding any event stream preserves goodness of all blocks. -/
theorem feed_good (evs : List HtmlEvent) (st : HTMLTextExtractor)
    (h : st.result.all goodBlock = true) :
    (feed st evs).result.all goodBlock = true := by
  induction evs generalizing st with
  | nil => exact h
  | cons ev evs ih =>
    show (feed (feedEvent st ev) evs).result.all goodBlock = true
    apply ih
    cases ev with
    | startTag t => simpa [feedEvent, handle_starttag] using h
    | endTag t =>
      by_cases he : st.current_tag = some t <;>
        simpa [feedEvent, handle_endtag, he] using h
    | textData d => exact handle_data_good d h

/-- Joining good blocks yields a non-empty list. -/
theorem joinNL_ne_nil {b : List Char} {bs : List (List Char)} (hb : b ≠ []) :
    joinNL (b :: bs) ≠ [] := by
  cases bs with
  | nil => simpa [joinNL]
  | cons c bs => simp [joinNL, hb]

/-- Joining good blocks yields a string with non-whitespace ends. -/
theorem nonWsEnds_joinNL (bs : List (List Char))
    (h : bs.all goodBlock = true) : nonWsEnds (joinNL bs) = true := by
  induction bs with
  | nil => simp [joinNL, nonWsEnds]
  | cons b bs ih =>
    simp only [List.all_cons, Bool.and_eq_true] at h
    obtain ⟨hb, hbs⟩ := h
    unfold goodBlock at hb
    simp only [Bool.and_eq_true] at hb
    obtain ⟨hbne, hbends⟩ := hb
    have hbnil : b ≠ [] := by
      intro hnil
      rw [hnil] at hbne
      simp at hbne
    cases bs with
    | nil => simpa [joinNL]
    | cons c bs2 =>
      have hih := ih hbs
      have hcne : c ≠ [] := by
        simp only [List.all_cons, Bool.and_eq_true] at hbs
        have := hbs.1
        unfold goodBlock at this
        simp only [Bool.and_eq_true] at this
        intro hnil
        rw [hnil] at this
        simp at this
      have hjoin_ne : joinNL (c :: bs2) ≠ [] := joinNL_ne_nil hcne
      show nonWsEnds (b ++ '\n' :: joinNL (c :: bs2)) = true
      unfold nonWsEnds at hbends hih ⊢
      simp only [Bool.and_eq_true] at hbends hih ⊢
      constructor
      · rw [List.head?_append_of_ne_nil _ hbnil]
        exact hbends.1
      · rw [List.getLast?_append_of_ne_nil _ (by simp)]
        have hcons : ('\n' :: joinNL (c :: bs2)) = ['\n'] ++ joinNL (c :: bs2) := by simp
        rw [hcons, List.getLast?_append_of_ne_nil _ hjoin_ne]
        exact hih.2

/-- C10, counterexample: the markup a-newline-newline-b produces the
single block a-newline-newline-b, so the extracted text contains two
consecutive newlines — a blank line — and the claim as stated is
false. -/
theorem c10_counterexample :
    extract_text_from_html "a\n\nb" = "a\n\nb"
    ∧ pyContains (extract_text_from_html "a\n\nb") "\n\n" = true := by
  constructor
  · decide
  · decide

/-- C10 (amended): for every markup input, every block the extractor
accumulates is non-empty with no whitespace at either end — each datum
is stripped before being kept — and blocks are joined with single
newline separators, so the result never starts or ends with a newline;
a single text datum may however itself contain consecutive newlines
that survive stripping, so the output can still contain blank
lines. -/
theorem c10_blocks_stripped_ends_clean (m : String) :
    ((feed initExtractor (tokenize m)).result.all goodBlock = true)
    ∧ nonWsEnds (extract_text_from_html m).data = true := by
  have hres := feed_good (tokenize m) initExtractor (by simp [initExtractor])
  refine ⟨hres, ?_⟩
  show nonWsEnds (get_text (feed initExtractor (tokenize m))).data = true
  unfold get_text
  exact nonWsEnds_joinNL _ hres

end Crawler
